import Mathlib

/-!
Verification of the zptess photometer-calibration engine.

This file gives a shallow embedding in Lean 4 of the parts of the zptess
code base that the frozen claims are about:

* the Python `statistics` helpers used by the code
  (`median_low`, `fmean`, `multimode`, `mode`, `stdev`),
* `RingBuffer` (`src/zptess/lib/controller/ring.py`),
* `best` / `mode` (`src/zptess/lib/photometer/util.py`),
* the volatile calibration controller
  (`src/zptess/lib/photometer/volatile.py`: `round_statistics`,
  `statistics`, `calibrate`), with the event trace made explicit,
* the persistent controller (`src/zptess/lib/photometer/persistent.py`:
  `save_samples`, `write_zp`, `not_updated`),
* the batch controller (`src/zptess/lib/controller/batch/batch.py`:
  `close`),
* the summary exporter column layout
  (`src/zptess/lib/controller/exporter.py`),
* the `Sample` entity equality/hash
  (`src/zptess/lib/dbase/model.py`).

Python floats are modelled by `ℚ`; the transcendental library functions
`math.log10`, `math.sqrt` and the float-rounding `round(x, 2)` are taken
as opaque parameters (a `MathPrims` record), since no claim depends on
their numeric values, only on where the code applies them.  Timestamps
are modelled by `ℕ` (UTC microsecond counts order-isomorphically embed).
Python exceptions are modelled by `Except String`.
-/

namespace Zptess

/-- The two photometer roles (`lica.asyncio.photometer.Role`). -/
inductive Role where
  | ref
  | test
deriving DecidableEq

/-- A photometer sample message: `tstamp` (UTC instant), `seq` (device
counter), `freq` (Hz), `tamb`/`tsky` (optional temperatures). -/
structure Msg where
  tstamp : Nat
  seq : Nat
  freq : Rat
  tamb : Option Rat
  tsky : Option Rat
deriving DecidableEq

/-- Opaque numeric primitives of the Python runtime: `math.sqrt`,
`math.log10` (on positive arguments) and `round(x, 2)`. -/
structure MathPrims where
  sqrtQ : Rat → Rat
  log10Q : Rat → Rat
  round2Q : Rat → Rat

/-- The central-tendency enumeration (`zptess.lib.CentralTendency`). -/
inductive CentralTendency where
  | median
  | mean
  | mode
deriving DecidableEq

/-- Insert a value into an ascending-sorted list (auxiliary for the
multiset-sort used by `statistics.median_low`). -/
def insort (x : Rat) : List Rat → List Rat
  | [] => [x]
  | y :: ys => if x ≤ y then x :: y :: ys else y :: insort x ys

/-- Ascending sort of a list of rationals (Python `sorted`). -/
def pysort (l : List Rat) : List Rat :=
  l.foldr insort []

/-- Python `statistics.median_low`: the lower median, always an element
of the data; raises `StatisticsError` on empty data. -/
def median_low (l : List Rat) : Except String Rat :=
  match pysort l with
  | [] => .error "StatisticsError: no median for empty data"
  | a :: t => .ok ((a :: t).getD ((l.length - 1) / 2) a)

/-- Python `statistics.fmean`: arithmetic mean; raises
`StatisticsError` on empty data. -/
def fmean (l : List Rat) : Except String Rat :=
  if l.length = 0 then .error "StatisticsError: fmean requires at least one data point"
  else .ok (l.sum / (l.length : Rat))

/-- The distinct values of a list in first-encounter order (the
iteration order of a Python `collections.Counter`). -/
def uniqFirst : List Rat → List Rat
  | [] => []
  | a :: t => a :: uniqFirst (t.filter (fun b => decide (b ≠ a)))
termination_by l => l.length
decreasing_by
  simp only [List.length_cons]
  exact Nat.lt_succ_of_le (List.length_filter_le _ _)

/-- Python `statistics.multimode`: every value attaining the maximal
multiplicity, in first-encounter order; `[]` on empty data. -/
def multimode (l : List Rat) : List Rat :=
  let u := uniqFirst l
  let m := (u.map (fun a => l.count a)).foldr max 0
  u.filter (fun a => decide (l.count a = m))

/-- Python `statistics.mode` (3.8+): the first-encountered most common
value; raises `StatisticsError` only on empty data. -/
def pymode (l : List Rat) : Except String Rat :=
  match multimode l with
  | [] => .error "StatisticsError: no mode for empty data"
  | a :: _ => .ok a

/-- Python `statistics.stdev(data, xbar)`: sample standard deviation
about the supplied central value (Bessel corrected); raises
`StatisticsError` when fewer than two data points.  The square root is
the opaque primitive. -/
def stdev (P : MathPrims) (l : List Rat) (xbar : Rat) : Except String Rat :=
  if l.length < 2 then .error "StatisticsError: stdev requires at least two data points"
  else .ok (P.sqrtQ (((l.map (fun x => (x - xbar) ^ 2)).sum) / ((l.length : Rat) - 1)))

/-- `mode` from `zptess/lib/photometer/util.py`: the unique mode of the
sequence; raises `StatisticsError` when the multimode is not a
singleton. -/
def modeUtil (l : List Rat) : Except String Rat :=
  match multimode l with
  | [a] => .ok a
  | _ => .error "StatisticsError"

/-- `best` from `zptess/lib/photometer/util.py`: the unique mode when
one exists, else `median_low`.  Note: the source returns the bare
value, with no method tag. -/
def best (l : List Rat) : Except String Rat :=
  match modeUtil l with
  | .ok r => .ok r
  | .error _ => median_low l

/-- Modelled from the spec: the tagged `best` selection of §4.5 step 4
("apply `best(seq)`: if a unique mode exists, use it and tag the method
as MODE; else fall back to `median_low` and tag MEDIAN").  The caller
`volatile.Controller.calibrate` unpacks `best(...)` into
`(method, value)`, but the `best` present in `src` returns the bare
value; the tagged variant those call sites require is missing from
`src`, so it is modelled here from the spec's words. -/
def bestTagged (l : List Rat) : Except String (CentralTendency × Rat) :=
  match modeUtil l with
  | .ok r => .ok (CentralTendency.mode, r)
  | .error _ =>
    match median_low l with
    | .ok r => .ok (CentralTendency.median, r)
    | .error e => .error e

/-! ## RingBuffer (`zptess/lib/controller/ring.py`)

The buffer is a `collections.deque` with `maxlen = capacity`: appending
to a full deque evicts the oldest element. -/

/-- A bounded FIFO buffer of messages. -/
structure RingBuffer (α : Type) where
  capacity : Nat
  buffer : List α
deriving DecidableEq

/-- A fresh ring of the given capacity (`deque([], capacity)`). -/
def RingBuffer.empty (α : Type) (capacity : Nat) : RingBuffer α :=
  { capacity := capacity, buffer := [] }

/-- `RingBuffer.append`: deque append with `maxlen` semantics — keep
only the newest `capacity` items. -/
def RingBuffer.append (r : RingBuffer α) (x : α) : RingBuffer α :=
  let b := r.buffer ++ [x]
  { capacity := r.capacity, buffer := b.drop (b.length - r.capacity) }

/-- Fold a sequence of appends over the ring. -/
def RingBuffer.appendAll (r : RingBuffer α) (xs : List α) : RingBuffer α :=
  xs.foldl RingBuffer.append r

/-- `RingBuffer.frequencies`: the `freq` fields of the buffered
messages, oldest first. -/
def RingBuffer.frequencies (r : RingBuffer Msg) : List Rat :=
  r.buffer.map Msg.freq

/-- `RingBuffer.statistics` applied to a frequency list: central
estimate per the configured tendency, then the sample standard
deviation about it.  Any `StatisticsError` propagates. -/
def ringStatistics (P : MathPrims) (central : CentralTendency) (freqs : List Rat) :
    Except String (Rat × Rat) :=
  match (match central with
         | CentralTendency.median => median_low freqs
         | CentralTendency.mean => fmean freqs
         | CentralTendency.mode => pymode freqs) with
  | .error e => .error e
  | .ok c =>
    match stdev P freqs c with
    | .error e => .error e
    | .ok sd => .ok (c, sd)

/-! ## Volatile calibration controller (`zptess/lib/photometer/volatile.py`)

`statistics` and `calibrate` are embedded as functions of the per-round
ring contents: the concurrent producer tasks overwrite the rings between
rounds, so the cooperative-scheduling outcome is abstracted as an oracle
`rings : ℕ → List ℚ` per role giving the ring's frequency list at the
moment round `i` snapshots it.  The pubsub events are made explicit as a
trace; `flagSet` marks the `is_calibrated = True` assignment that stops
the producer tasks. -/

/-- Calibration parameters resolved by `Controller.init`. -/
structure CalibParams where
  nrounds : Nat
  zp_fict : Rat
  zp_offset : Rat
  zp_abs : Rat
  freq_offset_ref : Rat
  freq_offset_test : Rat
deriving DecidableEq

/-- The observable lifecycle of one `calibrate()` run: the pubsub events
plus the producer-termination flag assignment. -/
inductive Ev where
  | calStart
  | reading (role : Role)
  | round (current : Nat)
  | flagSet
  | summary
  | calEnd
deriving DecidableEq

/-- The SUMMARY event payload built at the end of `calibrate`. -/
structure SummaryInfo where
  zero_point_seq : List Rat
  ref_freq_seq : List Rat
  test_freq_seq : List Rat
  best_ref_freq : Rat
  best_ref_freq_method : CentralTendency
  best_ref_mag : Rat
  best_test_freq : Rat
  best_test_freq_method : CentralTendency
  best_test_mag : Rat
  mag_diff : Rat
  best_zero_point : Rat
  best_zero_point_method : CentralTendency
  final_zero_point : Rat
deriving DecidableEq

/-- `Controller.round_statistics` for one role and one round: `none`
models the `(None, None, None)` triple after a caught
`StatisticsError`; `some (freq, stdev, none)` models the caught
`ValueError` from `math.log10(freq - freq_offset)` when
`freq - freq_offset ≤ 0`; otherwise all three statistics are present,
with `mag = zp_fict - 2.5 * log10(freq - freq_offset)`. -/
def round_statistics (P : MathPrims) (zp_fict freq_offset : Rat)
    (central : CentralTendency) (freqs : List Rat) :
    Option (Rat × Rat × Option Rat) :=
  match ringStatistics P central freqs with
  | .error _ => none
  | .ok (f, sd) =>
    if f - freq_offset ≤ 0 then some (f, sd, none)
    else some (f, sd, some (zp_fict - 5 / 2 * P.log10Q (f - freq_offset)))

/-- The round loop of `Controller.statistics`, from round index `i`
with `k` rounds remaining.  Each iteration computes both roles' round
statistics, then `mag_diff = ref_mag - test_mag`: when either magnitude
is `None` the Python subtraction raises `TypeError` (uncaught), which
aborts the loop — modelled by `Except.error`.  On success it returns
the emitted ROUND trace and the accumulated zero points and per-role
frequencies. -/
def statsRounds (P : MathPrims) (par : CalibParams) (central : CentralTendency)
    (ringsR ringsT : Nat → List Rat) :
    Nat → Nat → Except String (List Ev × List Rat × List Rat × List Rat)
  | _, 0 => .ok ([], [], [], [])
  | i, k + 1 =>
    match round_statistics P par.zp_fict par.freq_offset_ref central (ringsR i),
          round_statistics P par.zp_fict par.freq_offset_test central (ringsT i) with
    | some (fR, _, some mR), some (fT, _, some mT) =>
      match statsRounds P par central ringsR ringsT (i + 1) k with
      | .error e => .error e
      | .ok (tr, zps, rf, tf) =>
        .ok (Ev.round (i + 1) :: tr, (par.zp_abs + (mR - mT)) :: zps, fR :: rf, fT :: tf)
    | _, _ => .error "TypeError: unsupported operand types for subtraction with NoneType"

/-- `Controller.statistics`: run all `nrounds` rounds, then round each
zero point to two decimals, collect the per-role frequency sequences,
and set the producer-termination flag (`is_calibrated = True`). -/
def statisticsF (P : MathPrims) (par : CalibParams) (central : CentralTendency)
    (ringsR ringsT : Nat → List Rat) :
    Except String (List Ev × List Rat × List Rat × List Rat) :=
  match statsRounds P par central ringsR ringsT 0 par.nrounds with
  | .error e => .error e
  | .ok (tr, zps, rf, tf) => .ok (tr ++ [Ev.flagSet], zps.map P.round2Q, rf, tf)

/-- `Controller.calibrate`: CAL_START, prefill READINGs (the
interleaving of the two concurrent `fill_buffer` tasks is abstracted as
the oracle `prefill`), the round phase, then the best-selection summary
phase, the SUMMARY event and CAL_END.  Returns the full event trace,
the SUMMARY payload and the returned final zero point. -/
def calibrateF (P : MathPrims) (par : CalibParams) (central : CentralTendency)
    (prefill : List Role) (ringsR ringsT : Nat → List Rat) :
    Except String (List Ev × SummaryInfo × Rat) :=
  match statisticsF P par central ringsR ringsT with
  | .error e => .error e
  | .ok (rtrace, zero_points, ref_freqs, test_freqs) =>
    match bestTagged zero_points, bestTagged ref_freqs, bestTagged test_freqs with
    | .ok (bzm, bzp), .ok (brfm, brf), .ok (btfm, btf) =>
      .ok ((Ev.calStart :: prefill.map Ev.reading) ++ rtrace ++ [Ev.summary, Ev.calEnd],
        { zero_point_seq := zero_points
          ref_freq_seq := ref_freqs
          test_freq_seq := test_freqs
          best_ref_freq := brf
          best_ref_freq_method := brfm
          best_ref_mag := par.zp_fict - 5 / 2 * P.log10Q brf
          best_test_freq := btf
          best_test_freq_method := btfm
          best_test_mag := par.zp_fict - 5 / 2 * P.log10Q btf
          mag_diff := -(5 / 2) * P.log10Q (brf / btf)
          best_zero_point := bzp
          best_zero_point_method := bzm
          final_zero_point := bzp + par.zp_offset },
        bzp + par.zp_offset)
    | .error e, _, _ => .error e
    | .ok _, .error e, _ => .error e
    | .ok _, .ok _, .error e => .error e

/-! ## Persistent controller: sample persistence
(`zptess/lib/photometer/persistent.py`, `save_samples`)

`accum_samples[role]` holds, per round, the copy of the role's ring
snapshot taken at the ROUND event (spec §4.6; the hand-off of the
snapshots into `accum_samples` is not present under `src`, so the
snapshots are taken here as the function's input).  `save_samples`
first forms the set union of all snapshots (Python `set.update`), then
links each unique sample to every round whose snapshot contains it. -/

/-- The deduplicated union of all per-round snapshots of one role
(the Python `set` accumulated by `save_samples`); its length is the
number of `Sample` rows inserted for the role. -/
def uniqueSamples (snaps : List (List Msg)) : List Msg :=
  snaps.flatten.dedup

/-- The number of `Sample` rows `save_samples` inserts for one role. -/
def sampleRowCount (snaps : List (List Msg)) : Nat :=
  (uniqueSamples snaps).length

/-- The number of rounds-to-samples links `save_samples` creates for
one role: for each unique sample, one link per round whose snapshot
contains it (the membership test `sample in self.accum_samples[role][i]`). -/
def linkRowCount (snaps : List (List Msg)) : Nat :=
  ((uniqueSamples snaps).map (fun s => snaps.countP (fun snap => decide (s ∈ snap)))).sum

/-- The claim's sample count: the size of the union of the snapshots
deduplicated by timestamp. -/
def tstampRowCount (snaps : List (List Msg)) : Nat :=
  (snaps.flatten.map Msg.tstamp).dedup.length

/-- `begin_tstamp` of the round built from a snapshot
(`samples[0]["tstamp"]` in `save_rounds`). -/
def tBegin (snap : List Msg) : Nat :=
  (snap.head?.map Msg.tstamp).getD 0

/-- `end_tstamp` of the round built from a snapshot
(`samples[-1]["tstamp"]` in `save_rounds`). -/
def tEnd (snap : List Msg) : Nat :=
  (snap.getLast?.map Msg.tstamp).getD 0

/-- The claim's link count: per round, the unique samples whose
timestamp lies in the round's `[begin_tstamp, end_tstamp]` window. -/
def windowLinkCount (snaps : List (List Msg)) : Nat :=
  (snaps.map (fun snap =>
    (uniqueSamples snaps).countP
      (fun s => decide (tBegin snap ≤ s.tstamp ∧ s.tstamp ≤ tEnd snap)))).sum

/-! ## Persistent controller: ZP write-back
(`zptess/lib/photometer/persistent.py`, `write_zp` / `not_updated`) -/

/-- One `summary_t` row, restricted to the fields the write-back
touches. -/
structure SummRec where
  session : Nat
  role : Role
  upd_flag : Option Bool
  comment : Option String
deriving DecidableEq

/-- The flag update inside `Controller.write_zp`: every summary of the
measurement session gets `upd_flag = False` for REF and
`upd_flag = updated` otherwise. -/
def write_zp_flags (sess : Nat) (updated : Bool) (db : List SummRec) : List SummRec :=
  db.map (fun s =>
    if s.session = sess then
      { s with upd_flag := some (if s.role = Role.ref then false else updated) }
    else s)

/-- `Controller.write_zp` of the persistent controller.  The device
interaction (`super().write_zp`: `save_zero_point` then `get_info`)
is abstracted as its outcome `deviceResult`.  On an exception the flag
update still runs with `updated = False`, after which the
`return stored_zero_point` statement raises `UnboundLocalError`. -/
def write_zp_persist (deviceResult : Except String Rat) (sess : Nat) (db : List SummRec) :
    List SummRec × Except String Rat :=
  match deviceResult with
  | .ok z => (write_zp_flags sess true db, .ok z)
  | .error _ => (write_zp_flags sess false db, .error "UnboundLocalError: stored_zero_point")

/-- `Controller.not_updated`: set `upd_flag = False` and store the
message in `comment` on every summary of the session. -/
def not_updated (sess : Nat) (msg : String) (db : List SummRec) : List SummRec :=
  db.map (fun s =>
    if s.session = sess then { s with upd_flag := some false, comment := some msg }
    else s)

/-- The text recorded when the read-back differs from the requested
zero point. -/
def verifyMsg : String :=
  "ZP verification failed: stored value differs from written value"

/-- Modelled from the spec: `update_zp` — imported by
`cli/calibrate.py` from `cli.util.logging` but absent from `src`.
Spec §4.6 and §7(g): call `write_zp`; classify the outcome by comparing
the read-back with the requested value; a verify mismatch does not
throw, it records `upd_flag = False` and the verification message in
the summary `comment` via `not_updated`. -/
def update_zp (deviceResult : Except String Rat) (zero_point : Rat) (sess : Nat)
    (db : List SummRec) : List SummRec × Except String Unit :=
  match write_zp_persist deviceResult sess db with
  | (db1, .error e) => (db1, .error e)
  | (db1, .ok stored) =>
    if stored = zero_point then (db1, .ok ())
    else (not_updated sess verifyMsg db1, .ok ())

/-! ## Batch controller (`zptess/lib/controller/batch/batch.py`) -/

/-- One `batch_t` row. -/
structure BatchRec where
  begin_tstamp : Nat
  end_tstamp : Option Nat
  email_sent : Bool
  calibrations : Option Nat
  comment : Option String
deriving DecidableEq

/-- The batch controller's database view: batch rows plus summary rows
(the `summary_v` view restricts to TEST-role rows, modelled by keeping
the role on each summary). -/
structure BatchDB where
  batches : List BatchRec
  summaries : List SummRec
deriving DecidableEq

/-- The open batches: rows with `end_tstamp` null (`Controller._latest`
/ `_is_open`). -/
def openBatches (db : BatchDB) : List BatchRec :=
  db.batches.filter (fun b => decide (b.end_tstamp = none))

/-- `Controller.close`: fail (`RuntimeError`) if no batch is open;
fetch the single open batch, count the `summary_v` rows (TEST role,
any `upd_flag`) with `session BETWEEN begin AND now`, then set
`end_tstamp`, `email_sent = False` and `calibrations` on it and return
`(begin, end, count)`. -/
def closeUpdate (now n : Nat) (x : BatchRec) : BatchRec :=
  if x.end_tstamp = none then
    { x with end_tstamp := some now, email_sent := false, calibrations := some n }
  else x

def batchClose (db : BatchDB) (now : Nat) : Except String ((Nat × Nat × Nat) × BatchDB) :=
  match openBatches db with
  | [] => .error "RuntimeError: Batch already closed"
  | [b] =>
    let t0 := b.begin_tstamp
    let n := (db.summaries.filter (fun s =>
      decide (s.role = Role.test ∧ t0 ≤ s.session ∧ s.session ≤ now))).length
    .ok ((t0, now, n),
      { batches := db.batches.map (closeUpdate now n), summaries := db.summaries })
  | _ => .error "MultipleResultsFound: more than one open batch"

/-- The claim's count: the number of distinct calibration sessions
falling in `[t0, t1]`, independent of role multiplicity and of
`upd_flag`. -/
def sessionCount (summaries : List SummRec) (t0 t1 : Nat) : Nat :=
  ((summaries.map SummRec.session).dedup.filter (fun t => decide (t0 ≤ t ∧ t ≤ t1))).length

/-- Replace every summary's `upd_flag` through `f` (used to state that
the close count is independent of the flags). -/
def mapFlags (f : Option Bool → Option Bool) (summaries : List SummRec) : List SummRec :=
  summaries.map (fun s => { s with upd_flag := f s.upd_flag })

/-! ## Summary exporter (`zptess/lib/controller/exporter.py`) -/

/-- One row of the `summary_v`-based export query, all values already
rendered as text. -/
structure SummaryExportRow where
  model : String
  name : String
  mac : String
  firmware : String
  sensor : String
  session : String
  calibration : String
  calversion : String
  ref_mag : String
  ref_freq : String
  test_mag : String
  test_freq : String
  mag_diff : String
  raw_zero_point : String
  zp_offset : String
  zero_point : String
  prev_zp : String
  filter : String
  plug : String
  box : String
  collector : String
  author : String
  comment : String
deriving DecidableEq

/-- The literal header row `SUMMARY_EXPORT_HEADERS` of
`exporter.py`. -/
def SUMMARY_EXPORT_HEADERS : List String :=
  ["model", "name", "mac", "firmware", "sensor", "session", "calibration",
   "calversion", "ref_mag", "ref_freq", "test_mag", "test_freq", "mag_diff",
   "raw_zero_point", "offset", "zero_point", "prev_zp", "filter", "plug",
   "box", "collector", "author", "comment"]

/-- The column order of the `query_summaries` SELECT in `exporter.py`
(and identically in `cli/tools.py`), i.e. the order in which
`export_summaries` writes each data row's values. -/
def query_summaries_row (r : SummaryExportRow) : List String :=
  [r.model, r.name, r.mac, r.firmware, r.sensor, r.session, r.calibration,
   r.calversion, r.ref_mag, r.ref_freq, r.test_freq, r.test_mag, r.mag_diff,
   r.raw_zero_point, r.zp_offset, r.zero_point, r.prev_zp, r.filter, r.plug,
   r.box, r.collector, r.author, r.comment]

/-- The claim's reading of a data row: the value of the column whose
name the header declares at that position (`offset` is the view's
`zp_offset`). -/
def headerField (r : SummaryExportRow) (h : String) : String :=
  if h = "model" then r.model
  else if h = "name" then r.name
  else if h = "mac" then r.mac
  else if h = "firmware" then r.firmware
  else if h = "sensor" then r.sensor
  else if h = "session" then r.session
  else if h = "calibration" then r.calibration
  else if h = "calversion" then r.calversion
  else if h = "ref_mag" then r.ref_mag
  else if h = "ref_freq" then r.ref_freq
  else if h = "test_mag" then r.test_mag
  else if h = "test_freq" then r.test_freq
  else if h = "mag_diff" then r.mag_diff
  else if h = "raw_zero_point" then r.raw_zero_point
  else if h = "offset" then r.zp_offset
  else if h = "zero_point" then r.zero_point
  else if h = "prev_zp" then r.prev_zp
  else if h = "filter" then r.filter
  else if h = "plug" then r.plug
  else if h = "box" then r.box
  else if h = "collector" then r.collector
  else if h = "author" then r.author
  else r.comment

/-- A data row laid out in the column order the header declares. -/
def headerOrderRow (r : SummaryExportRow) : List String :=
  SUMMARY_EXPORT_HEADERS.map (headerField r)

/-! ## Sample entity (`zptess/lib/dbase/model.py`) -/

/-- One `samples_t` row (ORM `Sample`). -/
structure SampleRec where
  tstamp : Nat
  role : Role
  seq : Option Nat
  freq : Rat
  temp_box : Option Rat
deriving DecidableEq

/-- `Sample.__eq__`: comparison by `tstamp` only. -/
def sampleEq (a b : SampleRec) : Bool :=
  decide (a.tstamp = b.tstamp)

/-- `Sample.__hash__`: `hash(self.tstamp)`; the timestamp hash is
modelled by the timestamp itself. -/
def sampleHash (a : SampleRec) : Nat :=
  a.tstamp

/-! ## Concrete evaluation fixtures

Closed inputs used to evaluate the embedded code on concrete data. -/

/-- Concrete numeric primitives for evaluation (the claims under test
do not depend on the numeric values of `sqrt`/`log10`/`round`). -/
def Pw : MathPrims :=
  { sqrtQ := fun _ => 0, log10Q := fun _ => 0, round2Q := fun q => q }

/-- A one-round parameter set (`zp_abs = 20.37`, `zp_offset = 0.5`). -/
def parw : CalibParams :=
  { nrounds := 1, zp_fict := 20, zp_offset := 1 / 2, zp_abs := 2037 / 100,
    freq_offset_ref := 0, freq_offset_test := 0 }

/-- Ring-content oracle: both roles observe frequencies `[2, 4]` every
round. -/
def ringsW : Nat → List Rat := fun _ => [2, 4]

/-- The event trace of `calibrateF Pw parw median [] ringsW ringsW`. -/
def trW : List Ev :=
  [Ev.calStart, Ev.round 1, Ev.flagSet, Ev.summary, Ev.calEnd]

/-- The SUMMARY payload of `calibrateF Pw parw median [] ringsW
ringsW`. -/
def sW : SummaryInfo :=
  { zero_point_seq := [2037 / 100]
    ref_freq_seq := [2]
    test_freq_seq := [2]
    best_ref_freq := 2
    best_ref_freq_method := CentralTendency.mode
    best_ref_mag := 20
    best_test_freq := 2
    best_test_freq_method := CentralTendency.mode
    best_test_mag := 20
    mag_diff := 0
    best_zero_point := 2037 / 100
    best_zero_point_method := CentralTendency.mode
    final_zero_point := 2087 / 100 }

/-- The zero point returned by `calibrateF Pw parw median [] ringsW
ringsW`. -/
def retW : Rat := 2087 / 100

/-- Parameters making the TEST role's round magnitude undefined:
`freq_offset_test = 5` while the TEST ring reads a constant 5 Hz. -/
def par5 : CalibParams :=
  { nrounds := 1, zp_fict := 20, zp_offset := 0, zp_abs := 2037 / 100,
    freq_offset_ref := 0, freq_offset_test := 5 }

/-- TEST-ring oracle delivering the degenerate constant stream. -/
def rings5T : Nat → List Rat := fun _ => [5, 5]

/-- Summary rows of one calibration session (session 100) plus an older
unrelated TEST row. -/
def dbW6 : List SummRec :=
  [{ session := 100, role := Role.ref, upd_flag := none, comment := none },
   { session := 100, role := Role.test, upd_flag := none, comment := none },
   { session := 50, role := Role.test, upd_flag := some true, comment := none }]

/-- A batch database with one open batch (begun at 5), one closed
batch, and three calibration sessions (6, 8, 20). -/
def dbW8 : BatchDB :=
  { batches :=
      [{ begin_tstamp := 5, end_tstamp := none, email_sent := false,
         calibrations := none, comment := none },
       { begin_tstamp := 1, end_tstamp := some 3, email_sent := true,
         calibrations := some 0, comment := none }],
    summaries :=
      [{ session := 6, role := Role.ref, upd_flag := none, comment := none },
       { session := 6, role := Role.test, upd_flag := some true, comment := none },
       { session := 8, role := Role.test, upd_flag := some false, comment := none },
       { session := 20, role := Role.test, upd_flag := none, comment := none }] }

/-- The single open batch of `dbW8`. -/
def openW8 : BatchRec :=
  { begin_tstamp := 5, end_tstamp := none, email_sent := false,
    calibrations := none, comment := none }

/-- A concrete summary export row whose `test_mag` and `test_freq`
render differently. -/
def exportRowW : SummaryExportRow :=
  { model := "TESS-W", name := "stars7", mac := "AA:BB:CC:DD:EE:FF",
    firmware := "1.0", sensor := "TSL237", session := "2024-06-01T12:00:00",
    calibration := "auto", calversion := "4.0.0", ref_mag := "13.00",
    ref_freq := "1000.000", test_mag := "13.75", test_freq := "500.000",
    mag_diff := "-0.75", raw_zero_point := "19.62", zp_offset := "0.5",
    zero_point := "20.12", prev_zp := "20.50", filter := "UV/IR-740",
    plug := "USB-A", box := "FSH714", collector := "standard",
    author := "somebody", comment := "" }

/-- Four messages with strictly increasing timestamps. -/
def m1 : Msg := { tstamp := 1, seq := 11, freq := 10, tamb := none, tsky := none }

/-- Second message of the concrete stream. -/
def m2 : Msg := { tstamp := 2, seq := 12, freq := 11, tamb := none, tsky := none }

/-- Third message of the concrete stream. -/
def m3 : Msg := { tstamp := 3, seq := 13, freq := 12, tamb := none, tsky := none }

/-- Fourth message of the concrete stream. -/
def m4 : Msg := { tstamp := 4, seq := 14, freq := 13, tamb := none, tsky := none }

/-- The concrete message stream of one role. -/
def streamW : List Msg := [m1, m2, m3, m4]

/-- Two overlapping capacity-3 ring snapshots of `streamW` (the sliding
window advanced by one between the rounds). -/
def snapsW : List (List Msg) := [[m1, m2, m3], [m2, m3, m4]]

/-! ## Helper lemmas -/

/-- Closed form of a run of appends: the ring keeps the newest
`capacity` elements of the concatenation of the old buffer and the
appended items. -/
theorem appendAll_closed {α : Type} (xs : List α) :
    ∀ r : RingBuffer α, r.buffer.length ≤ r.capacity →
      (r.appendAll xs).buffer =
        (r.buffer ++ xs).drop ((r.buffer ++ xs).length - r.capacity) ∧
      (r.appendAll xs).capacity = r.capacity := by
  induction xs with
  | nil =>
    intro r h
    constructor
    · simp [RingBuffer.appendAll, Nat.sub_eq_zero_of_le h]
    · simp [RingBuffer.appendAll]
  | cons x xs ih =>
    intro r h
    have hlen : (r.append x).buffer.length ≤ (r.append x).capacity := by
      simp [RingBuffer.append, List.length_drop]
      omega
    have hstep : RingBuffer.appendAll r (x :: xs) = RingBuffer.appendAll (r.append x) xs := rfl
    have hmain := ih (r.append x) hlen
    have hcap : (r.append x).capacity = r.capacity := rfl
    have hbuf : (r.append x).buffer =
        (r.buffer ++ [x]).drop ((r.buffer ++ [x]).length - r.capacity) := rfl
    refine ⟨?_, by rw [hstep, hmain.2, hcap]⟩
    rw [hstep, hmain.1, hcap, hbuf]
    have hd : (r.buffer ++ [x]).length - r.capacity ≤ (r.buffer ++ [x]).length :=
      Nat.sub_le _ _
    rw [← List.drop_append_of_le_length hd, List.drop_drop, List.length_drop]
    have hBx : r.buffer ++ [x] ++ xs = r.buffer ++ x :: xs := by simp
    rw [hBx]
    congr 1
    simp only [List.length_append, List.length_cons, List.length_nil]
    omega

/-- `bestTagged` refines `best`: the tagged selection returns exactly
the value the source `best` computes. -/
theorem bestTagged_ok_best (l : List Rat) (m : CentralTendency) (v : Rat)
    (h : bestTagged l = Except.ok (m, v)) : best l = Except.ok v := by
  unfold bestTagged at h
  unfold best
  cases hm : modeUtil l with
  | ok r => rw [hm] at h; injection h with h'; cases h'; rfl
  | error e =>
    rw [hm] at h
    cases hmed : median_low l with
    | ok r => rw [hmed] at h; injection h with h'; cases h'; rfl
    | error e2 => rw [hmed] at h; cases h

/-- The ROUND trace of the round loop: one event per remaining round,
with strictly increasing indices. -/
theorem statsRounds_trace (P : MathPrims) (par : CalibParams) (central : CentralTendency)
    (ringsR ringsT : Nat → List Rat) :
    ∀ (k i : Nat) (tr : List Ev) (zps rf tf : List Rat),
      statsRounds P par central ringsR ringsT i k = Except.ok (tr, zps, rf, tf) →
      tr = (List.range k).map (fun j => Ev.round (i + j + 1)) := by
  intro k
  induction k with
  | zero =>
    intro i tr zps rf tf h
    simp only [statsRounds] at h
    injection h with h'
    injection h' with ha hrest
    simp [← ha]
  | succ k ih =>
    intro i tr zps rf tf h
    simp only [statsRounds] at h
    split at h
    case h_2 => cases h
    case h_1 fR _ mR fT _ mT _ _ =>
      cases hrec : statsRounds P par central ringsR ringsT (i + 1) k with
      | error e => rw [hrec] at h; cases h
      | ok out =>
        obtain ⟨tr', zps', rf', tf'⟩ := out
        rw [hrec] at h
        injection h with h'
        have htr : tr = Ev.round (i + 1) :: tr' := (congrArg Prod.fst h').symm
        have htail := ih (i + 1) tr' zps' rf' tf' hrec
        rw [htr, htail, List.range_succ_eq_map]
        simp only [List.map_cons, List.map_map]
        refine congrArg₂ List.cons (by simp) ?_
        refine List.map_congr_left ?_
        intro a _
        simp only [Function.comp_apply, Nat.succ_eq_add_one]
        exact congrArg Ev.round (by omega)

/-! ## Claim theorems -/

/-- C7: for every capacity `c ≥ 1` and every sequence of `n` appends on
a fresh ring buffer of capacity `c`, the buffer length equals
`min n c` and the retained items are exactly the last `min n c`
appended items in arrival order (an append on a full buffer evicts the
oldest item). -/
theorem ring_buffer_retention {α : Type} (c : Nat) (hc : 1 ≤ c) (xs : List α) :
    ((RingBuffer.empty α c).appendAll xs).buffer.length = min xs.length c ∧
    ((RingBuffer.empty α c).appendAll xs).buffer = xs.drop (xs.length - c) := by
  have h := appendAll_closed xs (RingBuffer.empty α c) (by simp [RingBuffer.empty])
  have hbuf : ((RingBuffer.empty α c).appendAll xs).buffer = xs.drop (xs.length - c) := by
    rw [h.1]; simp [RingBuffer.empty]
  refine ⟨?_, hbuf⟩
  rw [hbuf, List.length_drop]
  omega

/-- Witness for C7 at `c = 2`, appends `[10, 20, 30]`. -/
theorem ring_buffer_retention_witness :
    1 ≤ 2 ∧
    ((RingBuffer.empty Nat 2).appendAll [10, 20, 30]).buffer.length = min 3 2 ∧
    ((RingBuffer.empty Nat 2).appendAll [10, 20, 30]).buffer = [10, 20, 30].drop (3 - 2) :=
  ⟨by decide, (ring_buffer_retention 2 (by decide) [10, 20, 30]).1,
    (ring_buffer_retention 2 (by decide) [10, 20, 30]).2⟩

/-- C10: two `Sample` entities compare equal, and hash equal, exactly
when their `tstamp` fields are equal, regardless of `role`, `seq`,
`freq` or `temp_box`; consequently membership tests over collections of
samples key by timestamp alone (last conjunct: two samples differing in
every other field still compare equal). -/
theorem sample_eq_hash_by_tstamp :
    (∀ a b : SampleRec, sampleEq a b = true ↔ a.tstamp = b.tstamp) ∧
    (∀ a b : SampleRec, sampleHash a = sampleHash b ↔ a.tstamp = b.tstamp) ∧
    (∀ (l : List SampleRec) (a : SampleRec),
      l.any (fun b => sampleEq a b) = true ↔ a.tstamp ∈ l.map SampleRec.tstamp) ∧
    sampleEq { tstamp := 5, role := Role.ref, seq := none, freq := 1, temp_box := none }
      { tstamp := 5, role := Role.test, seq := some 7, freq := 2, temp_box := none } = true := by
  refine ⟨fun a b => by simp [sampleEq], fun a b => Iff.rfl, ?_, by rfl⟩
  intro l a
  simp only [List.any_eq_true, sampleEq, decide_eq_true_eq, List.mem_map]
  exact ⟨fun ⟨x, hx, he⟩ => ⟨x, hx, he.symm⟩, fun ⟨x, hx, he⟩ => ⟨x, hx, he.symm⟩⟩

/-- C9 (the code contradicts the claim): the literal header row
declares `test_mag` at column 10 and `test_freq` at column 11, but
every data row written by `export_summaries` carries `test_freq` at
column 10 and `test_mag` at column 11; all other 21 columns agree with
the header order. -/
theorem export_summary_columns_mismatch :
    SUMMARY_EXPORT_HEADERS.length = 23 ∧
    (query_summaries_row exportRowW).length = 23 ∧
    SUMMARY_EXPORT_HEADERS[10]? = some "test_mag" ∧
    SUMMARY_EXPORT_HEADERS[11]? = some "test_freq" ∧
    (query_summaries_row exportRowW)[10]? = some exportRowW.test_freq ∧
    (query_summaries_row exportRowW)[11]? = some exportRowW.test_mag ∧
    query_summaries_row exportRowW ≠ headerOrderRow exportRowW ∧
    (query_summaries_row exportRowW).take 10 = (headerOrderRow exportRowW).take 10 ∧
    (query_summaries_row exportRowW).drop 12 = (headerOrderRow exportRowW).drop 12 := by
  decide

/-- C3 (the code contradicts the claim): `best` implements the
mode-else-`median_low` selection, but returns the bare value with no
method tag (its callers unpack a `(method, value)` pair).  With a
unique mode `19.60` it returns `19.60`; with all values distinct it
returns `median_low = 19.62`. -/
theorem best_value_untagged :
    best [196 / 10, 1962 / 100, 196 / 10] = Except.ok (196 / 10) ∧
    best [196 / 10, 1962 / 100, 1964 / 100] = Except.ok (1962 / 100) ∧
    multimode [196 / 10, 1962 / 100, 196 / 10] = [196 / 10] ∧
    multimode [196 / 10, 1962 / 100, 1964 / 100] =
      [196 / 10, 1962 / 100, 1964 / 100] := by
  norm_num [best, modeUtil, multimode, uniqFirst, median_low, pysort, insort]

/-- C5 (the code contradicts the claim): in a round where the TEST
role's `freq - freq_offset ≤ 0`, `round_statistics` does return the
`(freq, stdev, None)` triple, but `statistics` then computes
`ref_mag - test_mag` on the `None`, raising an uncaught `TypeError`:
the ROUND event is never emitted and `calibrate` aborts instead of
continuing with a null zero point. -/
theorem degenerate_round_aborts :
    round_statistics Pw par5.zp_fict par5.freq_offset_test CentralTendency.median [5, 5] =
      some (5, 0, none) ∧
    statisticsF Pw par5 CentralTendency.median ringsW rings5T =
      Except.error "TypeError: unsupported operand types for subtraction with NoneType" ∧
    calibrateF Pw par5 CentralTendency.median [] ringsW rings5T =
      Except.error "TypeError: unsupported operand types for subtraction with NoneType" := by
  norm_num [calibrateF, statisticsF, statsRounds, round_statistics, ringStatistics,
    median_low, pysort, insort, stdev, Pw, par5, ringsW, rings5T]

/-- C2: every run of `calibrate()` that completes without error emits
exactly `nrounds` ROUND events with indices `1..nrounds` in increasing
order, then sets the producer termination flag, then emits exactly one
SUMMARY and finally exactly one CAL_END (CAL_START and the prefill
READING events precede the rounds). -/
theorem calibrate_event_order (P : MathPrims) (par : CalibParams)
    (central : CentralTendency) (prefill : List Role)
    (ringsR ringsT : Nat → List Rat)
    (tr : List Ev) (s : SummaryInfo) (ret : Rat)
    (h : calibrateF P par central prefill ringsR ringsT = Except.ok (tr, s, ret)) :
    tr = Ev.calStart :: prefill.map Ev.reading
      ++ (List.range par.nrounds).map (fun i => Ev.round (i + 1))
      ++ [Ev.flagSet, Ev.summary, Ev.calEnd] := by
  cases hst : statisticsF P par central ringsR ringsT with
  | error e => simp only [calibrateF, hst] at h; cases h
  | ok out =>
    obtain ⟨rtrace, zps, rfs, tfs⟩ := out
    cases hb1 : bestTagged zps with
    | error e1 => simp only [calibrateF, hst, hb1] at h; cases h
    | ok p1 =>
    obtain ⟨bzm, bzp⟩ := p1
    cases hb2 : bestTagged rfs with
    | error e2 => simp only [calibrateF, hst, hb1, hb2] at h; cases h
    | ok p2 =>
    obtain ⟨brfm, brf⟩ := p2
    cases hb3 : bestTagged tfs with
    | error e3 => simp only [calibrateF, hst, hb1, hb2, hb3] at h; cases h
    | ok p3 =>
    obtain ⟨btfm, btf⟩ := p3
    simp only [calibrateF, hst, hb1, hb2, hb3, Except.ok.injEq, Prod.mk.injEq] at h
    obtain ⟨h1, h2, h3⟩ := h
    have htr : tr = Ev.calStart :: prefill.map Ev.reading ++ rtrace
        ++ [Ev.summary, Ev.calEnd] := h1.symm
    unfold statisticsF at hst
    cases hsr : statsRounds P par central ringsR ringsT 0 par.nrounds with
    | error e => rw [hsr] at hst; cases hst
    | ok out2 =>
      obtain ⟨tr0, zps0, rf0, tf0⟩ := out2
      rw [hsr] at hst
      injection hst with hst'
      have hr : rtrace = tr0 ++ [Ev.flagSet] := (congrArg Prod.fst hst').symm
      have h0 := statsRounds_trace P par central ringsR ringsT par.nrounds 0
        tr0 zps0 rf0 tf0 hsr
      rw [htr, hr, h0]
      simp [List.append_assoc]

/-- Witness for C2: a concrete one-round calibration that completes,
whose trace is CAL_START, ROUND 1, flag set, SUMMARY, CAL_END. -/
theorem calibrate_event_order_witness :
    trW = Ev.calStart :: ([] : List Role).map Ev.reading
      ++ (List.range parw.nrounds).map (fun i => Ev.round (i + 1))
      ++ [Ev.flagSet, Ev.summary, Ev.calEnd] := by
  have h : calibrateF Pw parw CentralTendency.median [] ringsW ringsW =
      Except.ok (trW, sW, retW) := by
    norm_num [calibrateF, statisticsF, statsRounds, round_statistics, ringStatistics,
      median_low, pysort, insort, stdev, bestTagged, modeUtil, multimode, uniqFirst,
      Pw, parw, ringsW, trW, sW, retW]
  exact calibrate_event_order Pw parw CentralTendency.median [] ringsW ringsW trW sW retW h

/-- C4: for every successful calibration, the zero point returned by
`calibrate()` equals `best_zp + zp_offset` exactly (no further
rounding), where `best_zp` is the `best`-selected element of the
per-round zero-point sequence published in the SUMMARY payload. -/
theorem calibrate_final_zp (P : MathPrims) (par : CalibParams)
    (central : CentralTendency) (prefill : List Role)
    (ringsR ringsT : Nat → List Rat)
    (tr : List Ev) (s : SummaryInfo) (ret : Rat)
    (h : calibrateF P par central prefill ringsR ringsT = Except.ok (tr, s, ret)) :
    ret = s.best_zero_point + par.zp_offset ∧
    s.final_zero_point = ret ∧
    best s.zero_point_seq = Except.ok s.best_zero_point := by
  cases hst : statisticsF P par central ringsR ringsT with
  | error e => simp only [calibrateF, hst] at h; cases h
  | ok out =>
    obtain ⟨rtrace, zps, rfs, tfs⟩ := out
    cases hb1 : bestTagged zps with
    | error e1 => simp only [calibrateF, hst, hb1] at h; cases h
    | ok p1 =>
    obtain ⟨bzm, bzp⟩ := p1
    cases hb2 : bestTagged rfs with
    | error e2 => simp only [calibrateF, hst, hb1, hb2] at h; cases h
    | ok p2 =>
    obtain ⟨brfm, brf⟩ := p2
    cases hb3 : bestTagged tfs with
    | error e3 => simp only [calibrateF, hst, hb1, hb2, hb3] at h; cases h
    | ok p3 =>
    obtain ⟨btfm, btf⟩ := p3
    simp only [calibrateF, hst, hb1, hb2, hb3, Except.ok.injEq, Prod.mk.injEq] at h
    obtain ⟨h1, h2, h3⟩ := h
    subst h2
    exact ⟨h3.symm, h3, bestTagged_ok_best zps bzm bzp hb1⟩

/-- Witness for C4: the concrete one-round calibration returns
`20.37 + 0.5 = 20.87`, the best-selected zero point plus the offset. -/
theorem calibrate_final_zp_witness :
    retW = sW.best_zero_point + parw.zp_offset ∧
    sW.final_zero_point = retW ∧
    best sW.zero_point_seq = Except.ok sW.best_zero_point := by
  have h : calibrateF Pw parw CentralTendency.median [] ringsW ringsW =
      Except.ok (trW, sW, retW) := by
    norm_num [calibrateF, statisticsF, statsRounds, round_statistics, ringStatistics,
      median_low, pysort, insort, stdev, bestTagged, modeUtil, multimode, uniqFirst,
      Pw, parw, ringsW, trW, sW, retW]
  exact calibrate_final_zp Pw parw CentralTendency.median [] ringsW ringsW trW sW retW h

/-- Filtering a mapped list counts the same as filtering through the
map. -/
theorem length_filter_map_eq {α β : Type} (l : List α) (f : α → β) (p : β → Bool) :
    ((l.map f).filter p).length = (l.filter (fun a => p (f a))).length := by
  induction l with
  | nil => rfl
  | cons a t ih =>
    simp only [List.map_cons, List.filter_cons]
    cases hp : p (f a) <;> simp [hp, ih]

/-- The TEST-role-with-window count computed by `close` equals the
number of distinct sessions in the window, provided TEST-role sessions
are unique (the `UNIQUE(session, role)` constraint) and every session
has a TEST row (both roles are inserted per calibration). -/
theorem codeCount_eq_sessionCount (l : List SummRec) (t0 t1 : Nat)
    (hnd : ((l.filter (fun s => decide (s.role = Role.test))).map SummRec.session).Nodup)
    (hcover : ∀ s ∈ l, ∃ t ∈ l, t.role = Role.test ∧ t.session = s.session) :
    (l.filter (fun s =>
      decide (s.role = Role.test ∧ t0 ≤ s.session ∧ s.session ≤ t1))).length =
    sessionCount l t0 t1 := by
  have hsplit : l.filter (fun s =>
        decide (s.role = Role.test ∧ t0 ≤ s.session ∧ s.session ≤ t1)) =
      (l.filter (fun s => decide (s.role = Role.test))).filter
        (fun s => decide (t0 ≤ s.session ∧ s.session ≤ t1)) := by
    rw [List.filter_filter]
    refine List.filter_congr ?_
    intro s _
    by_cases h1 : s.role = Role.test <;>
      by_cases h2 : t0 ≤ s.session ∧ s.session ≤ t1 <;> simp [h1, h2]
  rw [hsplit]
  have h1 : ((l.filter (fun s => decide (s.role = Role.test))).filter
        (fun s => decide (t0 ≤ s.session ∧ s.session ≤ t1))).length =
      (((l.filter (fun s => decide (s.role = Role.test))).map SummRec.session).filter
        (fun t => decide (t0 ≤ t ∧ t ≤ t1))).length := by
    rw [length_filter_map_eq]
  rw [h1]
  have hperm : ((l.filter (fun s => decide (s.role = Role.test))).map SummRec.session).Perm
      (l.map SummRec.session).dedup := by
    refine List.perm_of_nodup_nodup_toFinset_eq hnd (List.nodup_dedup _) ?_
    ext x
    simp only [List.mem_toFinset, List.mem_map, List.mem_filter, List.mem_dedup,
      decide_eq_true_eq]
    constructor
    · rintro ⟨s, ⟨hs, hrole⟩, rfl⟩
      exact ⟨s, hs, rfl⟩
    · rintro ⟨s, hs, rfl⟩
      obtain ⟨t, ht, htrole, htsess⟩ := hcover s hs
      exact ⟨t, ⟨ht, htrole⟩, htsess⟩
  unfold sessionCount
  exact (hperm.filter _).length_eq

/-- C6: when the post-commit ZP write-back verification fails (the
read-back differs from the requested ZP, no exception from the device),
no exception propagates; every summary of the session — the TEST row
and the REF row, whose flag is thereby false as always — ends with
`upd_flag = false` and the verification message in `comment`. -/
theorem write_zp_verify_mismatch (stored zp : Rat) (sess : Nat) (db : List SummRec)
    (hne : stored ≠ zp) :
    (update_zp (Except.ok stored) zp sess db).2 = Except.ok () ∧
    (update_zp (Except.ok stored) zp sess db).1 =
      db.map (fun s => if s.session = sess then
        { s with upd_flag := some false, comment := some verifyMsg } else s) ∧
    ∀ s ∈ (update_zp (Except.ok stored) zp sess db).1,
      s.session = sess → s.upd_flag = some false ∧ s.comment = some verifyMsg := by
  have hu : update_zp (Except.ok stored) zp sess db =
      (not_updated sess verifyMsg (write_zp_flags sess true db), Except.ok ()) := by
    simp [update_zp, write_zp_persist, hne]
  have hmap : not_updated sess verifyMsg (write_zp_flags sess true db) =
      db.map (fun s => if s.session = sess then
        { s with upd_flag := some false, comment := some verifyMsg } else s) := by
    simp only [not_updated, write_zp_flags, List.map_map]
    refine List.map_congr_left ?_
    intro s _
    by_cases hsess : s.session = sess
    · simp [Function.comp, hsess]
    · simp [Function.comp, hsess]
  refine ⟨by rw [hu], by rw [hu]; exact hmap, ?_⟩
  intro s hmem hsess
  rw [hu] at hmem
  simp only at hmem
  rw [hmap] at hmem
  obtain ⟨s0, hs0, rfl⟩ := List.mem_map.mp hmem
  by_cases h0 : s0.session = sess
  · simp [h0]
  · rw [if_neg h0] at hsess
    exact absurd hsess h0

/-- Witness for C6: requested ZP 19.6, read-back 19.5, on a session
with a REF and a TEST summary plus an unrelated older row. -/
theorem write_zp_verify_mismatch_witness :
    (update_zp (Except.ok (39 / 2 : Rat)) (98 / 5) 100 dbW6).2 = Except.ok () ∧
    (update_zp (Except.ok (39 / 2 : Rat)) (98 / 5) 100 dbW6).1 =
      dbW6.map (fun s => if s.session = 100 then
        { s with upd_flag := some false, comment := some verifyMsg } else s) :=
  ⟨(write_zp_verify_mismatch (39 / 2) (98 / 5) 100 dbW6 (by norm_num)).1,
   (write_zp_verify_mismatch (39 / 2) (98 / 5) 100 dbW6 (by norm_num)).2.1⟩

/-- C8: `close` fails when no batch is open; with one open batch it
sets its `end_tstamp` to the close instant, `email_sent` to false and
`calibrations` to the number of calibration sessions in
`[begin, end]`, and returns the triple `(begin, end, count)`; the count
is taken regardless of `upd_flag` (rewriting every flag leaves it
unchanged). -/
theorem batch_close_spec (db : BatchDB) (now : Nat) (b : BatchRec)
    (hopen : openBatches db = [b])
    (hnd : ((db.summaries.filter (fun s => decide (s.role = Role.test))).map
      SummRec.session).Nodup)
    (hcover : ∀ s ∈ db.summaries, ∃ t ∈ db.summaries,
      t.role = Role.test ∧ t.session = s.session) :
    batchClose db now = Except.ok
      ((b.begin_tstamp, now, sessionCount db.summaries b.begin_tstamp now),
       { batches := db.batches.map
           (closeUpdate now (sessionCount db.summaries b.begin_tstamp now)),
         summaries := db.summaries }) ∧
    (∀ f, (batchClose { batches := db.batches, summaries := mapFlags f db.summaries }
        now).map Prod.fst =
      Except.ok (b.begin_tstamp, now, sessionCount db.summaries b.begin_tstamp now)) ∧
    (∀ db2 : BatchDB, openBatches db2 = [] →
      batchClose db2 now = Except.error "RuntimeError: Batch already closed") := by
  have hcount := codeCount_eq_sessionCount db.summaries b.begin_tstamp now hnd hcover
  refine ⟨?_, ?_, ?_⟩
  · simp only [batchClose, hopen, hcount]
  · intro f
    have hopen2 : openBatches
        { batches := db.batches, summaries := mapFlags f db.summaries } = [b] := hopen
    have hflag : ((mapFlags f db.summaries).filter (fun s =>
          decide (s.role = Role.test ∧ b.begin_tstamp ≤ s.session ∧ s.session ≤ now))).length =
        (db.summaries.filter (fun s =>
          decide (s.role = Role.test ∧ b.begin_tstamp ≤ s.session ∧ s.session ≤ now))).length := by
      unfold mapFlags
      rw [length_filter_map_eq]
    simp only [batchClose, hopen2, hflag, hcount, Except.map]
  · intro db2 h2
    simp only [batchClose, h2]

/-- Witness for C8: closing `dbW8` at instant 10 returns
`(5, 10, 2)` — sessions 6 and 8 fall inside the batch window, session
20 does not — and stamps the open batch. -/
theorem batch_close_spec_witness :
    batchClose dbW8 10 = Except.ok
      ((5, 10, sessionCount dbW8.summaries 5 10),
       { batches := dbW8.batches.map (closeUpdate 10 (sessionCount dbW8.summaries 5 10)),
         summaries := dbW8.summaries }) ∧
    sessionCount dbW8.summaries 5 10 = 2 ∧
    batchClose { batches := [], summaries := dbW8.summaries } 10 =
      Except.error "RuntimeError: Batch already closed" := by
  have h := batch_close_spec dbW8 10 openW8 (by decide) (by decide) (by decide)
  exact ⟨h.1, by decide,
    h.2.2 { batches := [], summaries := dbW8.summaries } (by decide)⟩

/-- A `countP` is the sum of its indicator values. -/
theorem countP_eq_sum_map {α : Type} (l : List α) (q : α → Bool) :
    l.countP q = (l.map (fun b => if q b then 1 else 0)).sum := by
  induction l with
  | nil => rfl
  | cons a t ih =>
    rw [List.countP_cons, List.map_cons, List.sum_cons, ih]
    omega

/-- Sums of pointwise sums split. -/
theorem sum_map_add {β : Type} (l : List β) (f g : β → Nat) :
    (l.map (fun b => f b + g b)).sum = (l.map f).sum + (l.map g).sum := by
  induction l with
  | nil => rfl
  | cons b t ih =>
    simp only [List.map_cons, List.sum_cons, ih]
    omega

/-- A sum of zeros vanishes. -/
theorem sum_map_zero {β : Type} (l : List β) :
    (l.map (fun _ => (0 : Nat))).sum = 0 := by
  induction l with
  | nil => rfl
  | cons b t ih => simp [ih]

/-- Double counting: summing, over the rows of `l₁`, the matches in
`l₂` equals summing, over the rows of `l₂`, the matches in `l₁`. -/
theorem sum_countP_comm {α β : Type} (l₁ : List α) (l₂ : List β) (p : α → β → Bool) :
    (l₁.map (fun a => l₂.countP (p a))).sum =
    (l₂.map (fun b => l₁.countP (fun a => p a b))).sum := by
  induction l₁ with
  | nil =>
    simp only [List.map_nil, List.sum_nil, List.countP_nil, sum_map_zero]
  | cons a t ih =>
    have hsplit : (l₂.map (fun b => List.countP (fun x => p x b) (a :: t))).sum =
        (l₂.map (fun b => List.countP (fun x => p x b) t)).sum +
        (l₂.map (fun b => if p a b then 1 else 0)).sum := by
      rw [← sum_map_add]
      refine congrArg List.sum (List.map_congr_left ?_)
      intro b _
      rw [List.countP_cons]
    simp only [List.map_cons, List.sum_cons]
    rw [hsplit, ← ih, ← countP_eq_sum_map]
    omega

/-- In a timestamp-sorted list, the head's timestamp bounds every
member from below. -/
theorem head_tstamp_le {l : List Msg}
    (hp : List.Pairwise (fun a b => a.tstamp < b.tstamp) l)
    {s : Msg} (hs : s ∈ l) : tBegin l ≤ s.tstamp := by
  cases l with
  | nil => cases hs
  | cons a t =>
    rcases List.mem_cons.mp hs with rfl | hmem
    · simp [tBegin]
    · have := (List.pairwise_cons.mp hp).1 s hmem
      simp only [tBegin, List.head?_cons, Option.map_some', Option.getD_some]
      omega

/-- In a timestamp-sorted list, the last element's timestamp bounds
every member from above. -/
theorem tstamp_le_last {l : List Msg}
    (hp : List.Pairwise (fun a b => a.tstamp < b.tstamp) l)
    {s : Msg} (hs : s ∈ l) : s.tstamp ≤ tEnd l := by
  induction l with
  | nil => cases hs
  | cons a t ih =>
    cases t with
    | nil =>
      rcases List.mem_cons.mp hs with rfl | hmem
      · simp [tEnd]
      · cases hmem
    | cons b t2 =>
      have hEnd : tEnd (a :: b :: t2) = tEnd (b :: t2) := by
        simp [tEnd, List.getLast?_cons_cons]
      rcases List.mem_cons.mp hs with rfl | hmem
      · have hall := (List.pairwise_cons.mp hp).1
        have hg : (b :: t2).getLast (by simp) ∈ b :: t2 := List.getLast_mem _
        have hlt := hall _ hg
        have hEnd2 : tEnd (b :: t2) = ((b :: t2).getLast (by simp)).tstamp := by
          simp [tEnd, List.getLast?_eq_getLast]
        rw [hEnd, hEnd2]
        omega
      · rw [hEnd]
        exact ih (List.pairwise_cons.mp hp).2 hmem

/-- A unique sample of a timestamp-sorted stream lies in a non-empty
contiguous snapshot of the stream exactly when its timestamp lies in
the snapshot's `[begin, end]` window. -/
theorem mem_snap_iff_window (stream snap : List Msg)
    (hp : List.Pairwise (fun a b => a.tstamp < b.tstamp) stream)
    (hinf : ∃ p q, p ++ snap ++ q = stream) (hne : snap ≠ [])
    (s : Msg) (hs : s ∈ stream) :
    s ∈ snap ↔ (tBegin snap ≤ s.tstamp ∧ s.tstamp ≤ tEnd snap) := by
  obtain ⟨p, q, hpq⟩ := hinf
  subst hpq
  have hp' := hp
  rw [List.pairwise_append] at hp'
  obtain ⟨hps, hrestq, hcross1⟩ := hp'
  rw [List.pairwise_append] at hps
  obtain ⟨hpp, hpsnap, hcross2⟩ := hps
  constructor
  · intro hmem
    exact ⟨head_tstamp_le hpsnap hmem, tstamp_le_last hpsnap hmem⟩
  · rintro ⟨h1, h2⟩
    rcases List.mem_append.mp hs with hps2 | hqmem
    · rcases List.mem_append.mp hps2 with hpmem | hmem
      · cases hsnapc : snap with
        | nil => exact absurd hsnapc hne
        | cons a t =>
          have ha : a ∈ snap := by rw [hsnapc]; exact List.mem_cons_self _ _
          have hlt := hcross2 s hpmem a ha
          rw [hsnapc] at h1
          simp only [tBegin, List.head?_cons, Option.map_some', Option.getD_some] at h1
          omega
      · exact hmem
    · have hgl : snap.getLast hne ∈ snap := List.getLast_mem hne
      have hlt := hcross1 _ (List.mem_append_right p hgl) s hqmem
      have hEnd : tEnd snap = (snap.getLast hne).tstamp := by
        simp [tEnd, List.getLast?_eq_getLast _ hne]
      rw [hEnd] at h2
      omega

/-- Along a timestamp-sorted stream, the timestamp determines the
message. -/
theorem tstamp_inj_of_pairwise {stream : List Msg}
    (hp : List.Pairwise (fun a b => a.tstamp < b.tstamp) stream) :
    ∀ a ∈ stream, ∀ b ∈ stream, a.tstamp = b.tstamp → a = b := by
  induction stream with
  | nil => intro a ha; cases ha
  | cons x t ih =>
    intro a ha b hb heq
    obtain ⟨hx, ht⟩ := List.pairwise_cons.mp hp
    rcases List.mem_cons.mp ha with rfl | ha' <;> rcases List.mem_cons.mp hb with rfl | hb'
    · rfl
    · have := hx b hb'; omega
    · have := hx a ha'; omega
    · exact ih ht a ha' b hb' heq

/-- Deduplication commutes with an injective-on-members map, up to
length. -/
theorem dedup_map_length {α β : Type} [DecidableEq α] [DecidableEq β] (f : α → β) :
    ∀ l : List α, (∀ a ∈ l, ∀ b ∈ l, f a = f b → a = b) →
      (l.map f).dedup.length = l.dedup.length := by
  intro l
  induction l with
  | nil => intro _; rfl
  | cons a t ih =>
    intro hinj
    have hrec := ih fun x hx y hy =>
      hinj x (List.mem_cons_of_mem _ hx) y (List.mem_cons_of_mem _ hy)
    by_cases hmem : a ∈ t
    · have hf : f a ∈ t.map f := List.mem_map_of_mem f hmem
      rw [List.map_cons, List.dedup_cons_of_mem hf, List.dedup_cons_of_mem hmem]
      exact hrec
    · have hf : f a ∉ t.map f := by
        intro hcon
        obtain ⟨b, hb, hfb⟩ := List.mem_map.mp hcon
        have hba : b = a :=
          hinj b (List.mem_cons_of_mem _ hb) a (List.mem_cons_self _ _) hfb
        exact hmem (hba ▸ hb)
      rw [List.map_cons, List.dedup_cons_of_not_mem hf, List.dedup_cons_of_not_mem hmem]
      simp only [List.length_cons]
      exact congrArg Nat.succ hrec

/-- C1: for a calibration whose per-round snapshots are non-empty
contiguous windows of the role's timestamp-sorted message stream, the
number of Sample rows `save_samples` persists equals the size of the
union of the snapshots deduplicated by timestamp, and the number of
rounds-to-samples links equals the sum over rounds of the number of
unique samples whose timestamp lies in the round's
`[begin_tstamp, end_tstamp]` window. -/
theorem save_samples_counts (stream : List Msg) (snaps : List (List Msg))
    (hp : List.Pairwise (fun a b => a.tstamp < b.tstamp) stream)
    (hsnap : ∀ snap ∈ snaps, snap ≠ [] ∧ ∃ p q, p ++ snap ++ q = stream) :
    sampleRowCount snaps = tstampRowCount snaps ∧
    linkRowCount snaps = windowLinkCount snaps := by
  have hsub : ∀ s ∈ snaps.flatten, s ∈ stream := by
    intro s hsf
    obtain ⟨snap, hsnap', hsmem⟩ := List.mem_flatten.mp hsf
    obtain ⟨-, p, q, hpq⟩ := hsnap snap hsnap'
    rw [← hpq]
    exact List.mem_append_left _ (List.mem_append_right _ hsmem)
  constructor
  · have hinj := tstamp_inj_of_pairwise hp
    unfold sampleRowCount uniqueSamples tstampRowCount
    exact (dedup_map_length Msg.tstamp snaps.flatten
      (fun a ha b hb => hinj a (hsub a ha) b (hsub b hb))).symm
  · unfold linkRowCount windowLinkCount
    rw [sum_countP_comm (uniqueSamples snaps) snaps (fun s snap => decide (s ∈ snap))]
    refine congrArg List.sum (List.map_congr_left ?_)
    intro snap hsnapmem
    rw [List.countP_eq_length_filter, List.countP_eq_length_filter]
    refine congrArg List.length (List.filter_congr ?_)
    intro s hs'
    have hsflat : s ∈ snaps.flatten := by
      have : s ∈ snaps.flatten.dedup := hs'
      exact List.mem_dedup.mp this
    obtain ⟨hne, hinf⟩ := hsnap snap hsnapmem
    exact decide_eq_decide.mpr
      (mem_snap_iff_window stream snap hp hinf hne s (hsub s hsflat))

/-- Witness for C1: two overlapping 3-element snapshots of a 4-message
stream — 4 unique samples and 3 + 3 = 6 links either way. -/
theorem save_samples_counts_witness :
    (sampleRowCount snapsW = tstampRowCount snapsW ∧
      linkRowCount snapsW = windowLinkCount snapsW) ∧
    sampleRowCount snapsW = 4 ∧ linkRowCount snapsW = 6 := by
  refine ⟨save_samples_counts streamW snapsW (by decide) ?_, by decide, by decide⟩
  intro snap hmem
  simp only [snapsW, List.mem_cons, List.not_mem_nil, or_false] at hmem
  rcases hmem with rfl | rfl
  · exact ⟨by decide, [], [m4], by decide⟩
  · exact ⟨by decide, [m1], [], by decide⟩

end Zptess
